import Mathlib

/-!
# User management service: entity, repository contract and use-case layer

A shallow embedding of the Go packages `entity`, `repository`, `usecase`, of the two
repository implementations of the code base (the `postgres` adapter and the in-memory
`mockUserRepository` of the use-case tests) and of the `Get`, `Update` and `Delete` methods
of the transport `handler`, followed by theorems about them.

Conventions of the embedding

* A Go `string` is a Lean `String`; Go's `len(s)` is the number of bytes of `s`, which is
  `String.utf8ByteSize`.
* A `time.Time` is the instant it denotes, an integer number of nanoseconds. `time.Now()` is
  the reading `now` that the caller of a function passes in; `t.After(u)` is `u < t`.
* A Go result pair `(*User, error)` is a pair of options, `none` standing for `nil`.
* A method with a pointer receiver or pointer argument that writes through the pointer returns
  the new value of the pointee.
-/

/-- An instant, in nanoseconds: the value of a `time.Time`. -/
abbrev Time := Int

/-- A value of Go's `error` interface, as far as the program can tell values apart: the
sentinel `repository.ErrNotFound`, an error made by `errors.New`, or an error that wraps
another one (what `fmt.Errorf` gives with the verb `%w`). -/
inductive GoError where
  | notFound : GoError
  | text : String → GoError
  | wrap : String → GoError → GoError
deriving DecidableEq, Repr

namespace errors

/-- Go's `errors.New`. -/
def New (text : String) : GoError := GoError.text text

/-- Go's `errors.Is`: `err` is `target`, or wraps an error that is. -/
def Is : GoError → GoError → Bool
  | GoError.wrap m inner, target =>
      if GoError.wrap m inner = target then true else Is inner target
  | err, target => decide (err = target)

end errors

namespace entity

/-- The struct `User` of `entity/user.go`. -/
structure User where
  ID : String
  Name : String
  Email : String
  Password : String
  CreatedAt : Time
  UpdatedAt : Time
deriving DecidableEq, Repr

/-- The constructor `NewUser` of `entity/user.go`; `now` is what `time.Now()` returns. -/
def NewUser (now : Time) (name email password : String) : Option User × Option GoError :=
  if name = "" then
    (none, some (errors.New "name is required"))
  else if email = "" then
    (none, some (errors.New "email is required"))
  else if password.utf8ByteSize < 8 then
    (none, some (errors.New "password must be at least 8 characters"))
  else
    (some { ID := "", Name := name, Email := email, Password := password,
            CreatedAt := now, UpdatedAt := now }, none)

/-- The method `(u *User) Update` of `entity/user.go`: the first component is the user the
receiver points to when the method returns, the second the returned error; `now` is what
`time.Now()` returns. -/
def User.Update (now : Time) (u : User) (name email : String) : User × Option GoError :=
  if name = "" then
    (u, some (errors.New "name is required"))
  else if email = "" then
    (u, some (errors.New "email is required"))
  else
    ({ u with Name := name, Email := email, UpdatedAt := now }, none)

end entity

namespace repository

/-- Modelled from the spec: the sentinel error `repository.ErrNotFound`, which the use case and
both repository implementations name but whose declaration is not among the source files. The
spec calls it a distinguished error value that the orchestrator must be able to test for. -/
def ErrNotFound : GoError := GoError.notFound

/-- One call of a method of the interface `UserRepository`, with its arguments. -/
inductive Call where
  | Create : entity.User → Call
  | Get : String → Call
  | GetByEmail : String → Call
  | Update : entity.User → Call
  | Delete : String → Call
  | List : Call
deriving DecidableEq, Repr

/-- The interface `UserRepository` of `repository/user.go`, over a repository whose state has
type `σ`: every method takes the state before the call and returns what the Go method returns
together with the state after the call. `Create` receives a pointer and may write through it
(the `postgres` adapter stores the new identifier there), so it also returns the user its
argument points to afterwards; `Update` only reads its argument. -/
structure UserRepository (σ : Type) where
  Create : entity.User → σ → (entity.User × Option GoError) × σ
  Get : String → σ → (Option entity.User × Option GoError) × σ
  GetByEmail : String → σ → (Option entity.User × Option GoError) × σ
  Update : entity.User → σ → Option GoError × σ
  Delete : String → σ → Option GoError × σ
  List : σ → (List entity.User × Option GoError) × σ

end repository

namespace usecase

open repository

/-- How a call of `Create` or `Update` of the use case ends: it returns the pair
`(user, err)`, or it dereferences a nil `*User`. -/
inductive Outcome where
  | returned : Option entity.User → Option GoError → Outcome
  | nilDereference : Outcome
deriving DecidableEq, Repr

/-- A finished call of a use-case method: its result, the repository state it leaves, and the
repository methods it called, in order. -/
structure Run (σ α : Type) where
  result : α
  state : σ
  calls : List Call

/-- The method `(u *userUseCase) Create` of `usecase/user.go`. `NewUser` never returns neither
a user nor an error; if it did, the repository's `Create` would get a nil pointer, which both
implementations dereference. -/
def Create {σ : Type} (repo : UserRepository σ) (now : Time) (name email password : String)
    (s : σ) : Run σ Outcome :=
  match repo.GetByEmail email s with
  | ((existingUser, err), s1) =>
    if (match err with
        | some e => !errors.Is e ErrNotFound
        | none => false) then
      ⟨Outcome.returned none err, s1, [Call.GetByEmail email]⟩
    else if existingUser.isSome then
      ⟨Outcome.returned none (some (errors.New "user with this email already exists")), s1,
        [Call.GetByEmail email]⟩
    else
      match entity.NewUser now name email password with
      | (_, some e) => ⟨Outcome.returned none (some e), s1, [Call.GetByEmail email]⟩
      | (none, none) => ⟨Outcome.nilDereference, s1, [Call.GetByEmail email]⟩
      | (some user, none) =>
        match repo.Create user s1 with
        | ((_, some e), s2) =>
          ⟨Outcome.returned none (some e), s2, [Call.GetByEmail email, Call.Create user]⟩
        | ((user1, none), s2) =>
          ⟨Outcome.returned (some user1) none, s2, [Call.GetByEmail email, Call.Create user]⟩

/-- The method `(u *userUseCase) Get` of `usecase/user.go`. -/
def Get {σ : Type} (repo : UserRepository σ) (id : String) (s : σ) :
    Run σ (Option entity.User × Option GoError) :=
  ⟨(repo.Get id s).1, (repo.Get id s).2, [Call.Get id]⟩

/-- The method `(u *userUseCase) Update` of `usecase/user.go`. When the repository returns
neither a user nor an error, `user.Update` runs on a nil receiver: it returns its validation
error if there is one and dereferences the receiver otherwise. -/
def Update {σ : Type} (repo : UserRepository σ) (now : Time) (id name email : String)
    (s : σ) : Run σ Outcome :=
  match repo.Get id s with
  | ((_, some e), s1) => ⟨Outcome.returned none (some e), s1, [Call.Get id]⟩
  | ((none, none), s1) =>
    if name = "" then
      ⟨Outcome.returned none (some (errors.New "name is required")), s1, [Call.Get id]⟩
    else if email = "" then
      ⟨Outcome.returned none (some (errors.New "email is required")), s1, [Call.Get id]⟩
    else
      ⟨Outcome.nilDereference, s1, [Call.Get id]⟩
  | ((some user, none), s1) =>
    match entity.User.Update now user name email with
    | (_, some e) => ⟨Outcome.returned none (some e), s1, [Call.Get id]⟩
    | (user1, none) =>
      match repo.Update user1 s1 with
      | (some e, s2) => ⟨Outcome.returned none (some e), s2, [Call.Get id, Call.Update user1]⟩
      | (none, s2) => ⟨Outcome.returned (some user1) none, s2, [Call.Get id, Call.Update user1]⟩

/-- The method `(u *userUseCase) Delete` of `usecase/user.go`. -/
def Delete {σ : Type} (repo : UserRepository σ) (id : String) (s : σ) :
    Run σ (Option GoError) :=
  ⟨(repo.Delete id s).1, (repo.Delete id s).2, [Call.Delete id]⟩

/-- One call of a writing method of the use case, with its arguments and, where the method
reads the clock, the reading it gets. -/
inductive Op where
  | Create : Time → String → String → String → Op
  | Update : Time → String → String → String → Op
  | Delete : String → Op
deriving DecidableEq, Repr

/-- The repository state that one operation leaves. -/
def Op.apply {σ : Type} (repo : UserRepository σ) (s : σ) : Op → σ
  | Op.Create now name email password => (usecase.Create repo now name email password s).state
  | Op.Update now id name email => (usecase.Update repo now id name email s).state
  | Op.Delete id => (usecase.Delete repo id s).state

/-- The repository state after a sequence of operations run one after the other. -/
def runOps {σ : Type} (repo : UserRepository σ) (ops : List Op) (s : σ) : σ :=
  ops.foldl (Op.apply repo) s

/-- The method `(u *userUseCase) List` of `usecase/user.go`. -/
def List {σ : Type} (repo : UserRepository σ) (s : σ) :
    Run σ (List entity.User × Option GoError) :=
  ⟨(repo.List s).1, (repo.List s).2, [Call.List]⟩

end usecase

namespace postgres

open repository

/-- The database behind the adapter of `postgres/user.go`: the rows of table `users`, oldest
first, and the number of identifiers `uuid.New()` has handed out. The table carries no
uniqueness constraint (the code base declares no schema), and the database answers every
statement: connection failures and cancelled contexts are outside this model. -/
structure DB where
  users : List entity.User
  issued : Nat
deriving DecidableEq, Repr

/-- The method `(r *userRepository) Create`: `uuid n` is the string of the identifier that
the `n`-th call of `uuid.New()` returns. The `INSERT` appends one row. -/
def Create (uuid : Nat → String) (user : entity.User) (db : DB) :
    (entity.User × Option GoError) × DB :=
  (({ user with ID := uuid db.issued }, none),
    { users := db.users ++ [{ user with ID := uuid db.issued }], issued := db.issued + 1 })

/-- The method `(r *userRepository) Get`: the first row that `SELECT ... WHERE id = $1`
yields, and `ErrNotFound` for `sql.ErrNoRows`. -/
def Get (id : String) (db : DB) : (Option entity.User × Option GoError) × DB :=
  match db.users.find? (fun u => decide (u.ID = id)) with
  | some u => ((some u, none), db)
  | none => ((none, some ErrNotFound), db)

/-- The method `(r *userRepository) GetByEmail`: as `Get`, with `WHERE email = $1`. -/
def GetByEmail (email : String) (db : DB) : (Option entity.User × Option GoError) × DB :=
  match db.users.find? (fun u => decide (u.Email = email)) with
  | some u => ((some u, none), db)
  | none => ((none, some ErrNotFound), db)

/-- The method `(r *userRepository) Update`: the `UPDATE` sets `name`, `email` and
`updated_at` in every row whose `id` is that of `user`; no such row gives `ErrNotFound`. -/
def Update (user : entity.User) (db : DB) : Option GoError × DB :=
  if (db.users.filter (fun u => decide (u.ID = user.ID))).length = 0 then
    (some ErrNotFound, db)
  else
    (none,
      { db with
        users := db.users.map (fun u =>
          if u.ID = user.ID then
            { u with Name := user.Name, Email := user.Email, UpdatedAt := user.UpdatedAt }
          else u) })

/-- The method `(r *userRepository) Delete`: the `DELETE` removes every row whose `id` is
`id`; no such row gives `ErrNotFound`. -/
def Delete (id : String) (db : DB) : Option GoError × DB :=
  if (db.users.filter (fun u => decide (u.ID = id))).length = 0 then
    (some ErrNotFound, db)
  else
    (none, { db with users := db.users.filter (fun u => !decide (u.ID = id)) })

/-- The method `(r *userRepository) List`: the rows by `created_at`, newest first (rows of
equal `created_at` keep the order they are met in). -/
def List (db : DB) : (List entity.User × Option GoError) × DB :=
  ((db.users.insertionSort (fun a b => b.CreatedAt ≤ a.CreatedAt), none), db)

/-- The constructor `NewUserRepository` of `postgres/user.go`. -/
def NewUserRepository (uuid : Nat → String) : UserRepository DB where
  Create := Create uuid
  Get := Get
  GetByEmail := GetByEmail
  Update := Update
  Delete := Delete
  List := List

/-- The emails of the stored users are pairwise different. -/
abbrev DB.emailsUnique (db : DB) : Prop := (db.users.map (fun u => u.Email)).Nodup

end postgres

namespace mock

open repository

/-- The field `users map[string]*entity.User` of `mockUserRepository`
(`tests/usecase/user_test.go`): the entries of the map, keyed by email. A `range` over the map
meets the entries in the order of the list (Go leaves that order open). The map holds
pointers; the model holds the values they point to at the time of the call that stores them,
which is what the map holds as long as no caller writes to a user the map already has (a run
of the use case's `Create` never does). -/
abbrev Store := List (String × entity.User)

/-- The constructor `newMockUserRepository`: an empty map. -/
def newMockUserRepository : Store := []

/-- The method `(r *mockUserRepository) Create`: it stores the user under its email and
leaves the user, its `ID` included, as it was. -/
def Create (user : entity.User) (r : Store) : (entity.User × Option GoError) × Store :=
  match r.lookup user.Email with
  | some _ => ((user, some (errors.New "user already exists")), r)
  | none => ((user, none), r ++ [(user.Email, user)])

/-- The method `(r *mockUserRepository) Get`. -/
def Get (id : String) (r : Store) : (Option entity.User × Option GoError) × Store :=
  match r.find? (fun kv => decide (kv.2.ID = id)) with
  | some kv => ((some kv.2, none), r)
  | none => ((none, some ErrNotFound), r)

/-- The method `(r *mockUserRepository) GetByEmail`. -/
def GetByEmail (email : String) (r : Store) : (Option entity.User × Option GoError) × Store :=
  match r.lookup email with
  | some user => ((some user, none), r)
  | none => ((none, some ErrNotFound), r)

/-- The method `(r *mockUserRepository) Update`: after a successful `Get` of the user's `ID`
it stores the user under its email, replacing the entry of that key if there is one. -/
def Update (user : entity.User) (r : Store) : Option GoError × Store :=
  match (Get user.ID r).1.2 with
  | some e => (some e, r)
  | none =>
    match r.lookup user.Email with
    | some _ => (none, r.map (fun kv => if kv.1 = user.Email then (kv.1, user) else kv))
    | none => (none, r ++ [(user.Email, user)])

/-- The method `(r *mockUserRepository) Delete`: it deletes the first entry it meets whose
user has the given `ID`. -/
def Delete (id : String) (r : Store) : Option GoError × Store :=
  match r.find? (fun kv => decide (kv.2.ID = id)) with
  | some kv => (none, r.filter (fun kv1 => !decide (kv1.1 = kv.1)))
  | none => (some ErrNotFound, r)

/-- The method `(r *mockUserRepository) List`. -/
def List (r : Store) : (List entity.User × Option GoError) × Store :=
  ((r.map (fun kv => kv.2), none), r)

/-- The mock as a `UserRepository`. -/
def repo : UserRepository Store where
  Create := Create
  Get := Get
  GetByEmail := GetByEmail
  Update := Update
  Delete := Delete
  List := List

end mock

/-- The adapter of `postgres/user.go` over a database that fails every statement with the
error `err`, which is not `sql.ErrNoRows` (a lost connection, say): `Create` has written the
new identifier into the user before its `INSERT` fails, `Get` and `GetByEmail` return
`nil, err`, and `Update`, `Delete` and `List` return `err`. No row changes. -/
def postgres.disconnected (uuid : Nat → String) (err : GoError) :
    repository.UserRepository postgres.DB where
  Create := fun user db =>
    (({ user with ID := uuid db.issued }, some err), { db with issued := db.issued + 1 })
  Get := fun _ db => ((none, some err), db)
  GetByEmail := fun _ db => ((none, some err), db)
  Update := fun _ db => (some err, db)
  Delete := fun _ db => (some err, db)
  List := fun db => (([], some err), db)

namespace handler

/-- The struct `updateUserRequest` of `handler/user.go`. -/
structure updateUserRequest where
  Name : String
  Email : String
deriving DecidableEq, Repr

/-- What a handler answers: `ctx.ErrorResponse(err, status)` or
`ctx.JSONResponse(body, status)`, the body being a user or `nil`. -/
inductive Response where
  | ErrorResponse : GoError → Nat → Response
  | JSONResponse : Option entity.User → Nat → Response
deriving DecidableEq, Repr

/-- The HTTP status code of a response. -/
def Response.status : Response → Nat
  | Response.ErrorResponse _ code => code
  | Response.JSONResponse _ code => code

/-- The method `(h *userHandler) Get` of `handler/user.go`, over the use case built on `repo`;
`id` is the route parameter `ctx.UserValue("id")`. -/
def Get {σ : Type} (repo : repository.UserRepository σ) (id : String) (s : σ) :
    usecase.Run σ Response :=
  match (usecase.Get repo id s).result with
  | (_, some err) =>
    ⟨Response.ErrorResponse err 404, (usecase.Get repo id s).state, (usecase.Get repo id s).calls⟩
  | (user, none) =>
    ⟨Response.JSONResponse user 200, (usecase.Get repo id s).state, (usecase.Get repo id s).calls⟩

/-- The method `(h *userHandler) Update` of `handler/user.go`, over the use case built on
`repo`; `id` is the route parameter, and `body` is what `json.Unmarshal` makes of the request
body: its error, or the decoded request. The result is `none` when the use case dereferences
nil, so that the handler writes no response. -/
def Update {σ : Type} (repo : repository.UserRepository σ) (now : Time) (id : String)
    (body : Except GoError updateUserRequest) (s : σ) : usecase.Run σ (Option Response) :=
  match body with
  | Except.error err => ⟨some (Response.ErrorResponse err 400), s, []⟩
  | Except.ok req =>
    match (usecase.Update repo now id req.Name req.Email s).result with
    | usecase.Outcome.nilDereference =>
      ⟨none, (usecase.Update repo now id req.Name req.Email s).state,
        (usecase.Update repo now id req.Name req.Email s).calls⟩
    | usecase.Outcome.returned _ (some err) =>
      ⟨some (Response.ErrorResponse err 400),
        (usecase.Update repo now id req.Name req.Email s).state,
        (usecase.Update repo now id req.Name req.Email s).calls⟩
    | usecase.Outcome.returned user none =>
      ⟨some (Response.JSONResponse user 200),
        (usecase.Update repo now id req.Name req.Email s).state,
        (usecase.Update repo now id req.Name req.Email s).calls⟩

/-- The method `(h *userHandler) Delete` of `handler/user.go`, over the use case built on
`repo`; `id` is the route parameter. -/
def Delete {σ : Type} (repo : repository.UserRepository σ) (id : String) (s : σ) :
    usecase.Run σ Response :=
  match (usecase.Delete repo id s).result with
  | some err =>
    ⟨Response.ErrorResponse err 404, (usecase.Delete repo id s).state,
      (usecase.Delete repo id s).calls⟩
  | none =>
    ⟨Response.JSONResponse none 204, (usecase.Delete repo id s).state,
      (usecase.Delete repo id s).calls⟩

end handler

/-! ## The entity -/

/-- C1: `NewUser` returns an error and no user exactly when the name is empty, the email is
empty or the password has fewer than 8 bytes, and it returns a user and no error exactly in
every other case. -/
theorem C1_NewUser_fails_iff (now : Time) (name email password : String) :
    (((entity.NewUser now name email password).2 ≠ none ∧
        (entity.NewUser now name email password).1 = none) ↔
      (name = "" ∨ email = "" ∨ password.utf8ByteSize < 8)) ∧
    (((entity.NewUser now name email password).1 ≠ none ∧
        (entity.NewUser now name email password).2 = none) ↔
      ¬ (name = "" ∨ email = "" ∨ password.utf8ByteSize < 8)) := by
  unfold entity.NewUser
  by_cases hn : name = ""
  · simp [hn]
  · by_cases he : email = ""
    · simp [hn, he]
    · by_cases hp : password.utf8ByteSize < 8
      · simp [hn, he, hp]
      · simp [hn, he, hp]

/-- C6: for a non-empty name and a non-empty email, `User.Update` succeeds, and the user then
has the given name and email and the clock reading of the call as `UpdatedAt`, while `ID`,
`Password` and `CreatedAt` are those it had before the call. -/
theorem C6_Update_success_effect (now : Time) (u : entity.User) (name email : String)
    (hn : name ≠ "") (he : email ≠ "") :
    (entity.User.Update now u name email).2 = none ∧
    (entity.User.Update now u name email).1.Name = name ∧
    (entity.User.Update now u name email).1.Email = email ∧
    (entity.User.Update now u name email).1.UpdatedAt = now ∧
    (entity.User.Update now u name email).1.ID = u.ID ∧
    (entity.User.Update now u name email).1.Password = u.Password ∧
    (entity.User.Update now u name email).1.CreatedAt = u.CreatedAt := by
  simp [entity.User.Update, hn, he]

/-- Witness of C6 on the user and the arguments of `TestUserUpdate`. -/
theorem C6_Update_success_effect_witness :
    (entity.User.Update 7 ⟨"test-id", "Old Name", "old@example.com", "password123", 3, 4⟩
        "New Name" "new@example.com").2 = none ∧
    (entity.User.Update 7 ⟨"test-id", "Old Name", "old@example.com", "password123", 3, 4⟩
        "New Name" "new@example.com").1 =
      ⟨"test-id", "New Name", "new@example.com", "password123", 3, 7⟩ :=
  ⟨(C6_Update_success_effect 7 ⟨"test-id", "Old Name", "old@example.com", "password123", 3, 4⟩
      "New Name" "new@example.com" (by decide) (by decide)).1, by decide⟩

/-- C7: `User.Update` returns an error exactly when the name is empty or the email is empty,
and when it returns an error the user is, in every field, the one it was before the call. -/
theorem C7_Update_fails_iff (now : Time) (u : entity.User) (name email : String) :
    ((entity.User.Update now u name email).2 ≠ none ↔ (name = "" ∨ email = "")) ∧
    ((entity.User.Update now u name email).2 ≠ none →
      (entity.User.Update now u name email).1 = u) := by
  unfold entity.User.Update
  by_cases hn : name = ""
  · simp [hn]
  · by_cases he : email = ""
    · simp [hn, he]
    · simp [hn, he]

/-- C8, as stated, fails: a successful `User.Update` whose clock reading is not later than the
user's `UpdatedAt` leaves `UpdatedAt` no later than it was, and below `CreatedAt` when the
reading is earlier than that. -/
theorem C8_counterexample :
    (entity.User.Update 4 ⟨"test-id", "Old Name", "old@example.com", "password123", 5, 5⟩
        "New Name" "new@example.com").2 = none ∧
    ¬ ((5 : Time) <
      (entity.User.Update 4 ⟨"test-id", "Old Name", "old@example.com", "password123", 5, 5⟩
        "New Name" "new@example.com").1.UpdatedAt) ∧
    ¬ ((entity.User.Update 4 ⟨"test-id", "Old Name", "old@example.com", "password123", 5, 5⟩
        "New Name" "new@example.com").1.CreatedAt ≤
      (entity.User.Update 4 ⟨"test-id", "Old Name", "old@example.com", "password123", 5, 5⟩
        "New Name" "new@example.com").1.UpdatedAt) := by
  decide

/-- C8, amended: after every successful `User.Update` the user's `UpdatedAt` is the clock
reading of the call, whether or not the clock advanced; when that reading is later than the
`UpdatedAt` the user had, the new `UpdatedAt` is strictly later than the old one, and
`CreatedAt ≤ UpdatedAt` goes on holding if it held before the call. -/
theorem C8_Update_advances_with_clock (now : Time) (u : entity.User) (name email : String)
    (hok : (entity.User.Update now u name email).2 = none) :
    (entity.User.Update now u name email).1.UpdatedAt = now ∧
    (u.UpdatedAt < now →
      u.UpdatedAt < (entity.User.Update now u name email).1.UpdatedAt ∧
      (u.CreatedAt ≤ u.UpdatedAt →
        (entity.User.Update now u name email).1.CreatedAt ≤
          (entity.User.Update now u name email).1.UpdatedAt)) := by
  unfold entity.User.Update at hok ⊢
  by_cases hn : name = ""
  · simp [hn] at hok
  · by_cases he : email = ""
    · simp [hn, he] at hok
    · simp only [hn, he, if_false]
      exact ⟨trivial, fun hclock =>
        ⟨hclock, fun h => le_of_lt (lt_of_le_of_lt h hclock)⟩⟩

/-- Witness of the amended C8: a user built by `NewUser` at instant 5 and updated at
instant 6 has a strictly later `UpdatedAt`; the same user updated at instant 4, the clock
having gone back, has `UpdatedAt = 4`. -/
theorem C8_Update_advances_with_clock_witness :
    (entity.NewUser 5 "John Doe" "john@example.com" "password123").1 =
      some ⟨"", "John Doe", "john@example.com", "password123", 5, 5⟩ ∧
    (5 : Time) <
      (entity.User.Update 6 ⟨"", "John Doe", "john@example.com", "password123", 5, 5⟩
        "John Updated" "john.updated@example.com").1.UpdatedAt ∧
    (entity.User.Update 4 ⟨"", "John Doe", "john@example.com", "password123", 5, 5⟩
        "John Updated" "john.updated@example.com").1.UpdatedAt = 4 :=
  ⟨by decide,
    ((C8_Update_advances_with_clock 6 ⟨"", "John Doe", "john@example.com", "password123", 5, 5⟩
      "John Updated" "john.updated@example.com" (by decide)).2 (by decide)).1,
    (C8_Update_advances_with_clock 4 ⟨"", "John Doe", "john@example.com", "password123", 5, 5⟩
      "John Updated" "john.updated@example.com" (by decide)).1⟩

/-- C9: for a non-empty name, a non-empty email and a password of at least 8 bytes, `NewUser`
returns, without error, the user with that name, email and password, the empty `ID`, and the
one clock reading of the call as both `CreatedAt` and `UpdatedAt`. -/
theorem C9_NewUser_success_value (now : Time) (name email password : String)
    (hn : name ≠ "") (he : email ≠ "") (hp : 8 ≤ password.utf8ByteSize) :
    entity.NewUser now name email password =
      (some { ID := "", Name := name, Email := email, Password := password,
              CreatedAt := now, UpdatedAt := now }, none) := by
  have hp1 : ¬ password.utf8ByteSize < 8 := Nat.not_lt.mpr hp
  simp [entity.NewUser, hn, he, hp1]

/-- Witness of C9 on the valid user of `TestNewUser`. -/
theorem C9_NewUser_success_value_witness :
    entity.NewUser 5 "John Doe" "john@example.com" "password123" =
      (some ⟨"", "John Doe", "john@example.com", "password123", 5, 5⟩, none) :=
  C9_NewUser_success_value 5 "John Doe" "john@example.com" "password123"
    (by decide) (by decide) (by decide)

/-! ## The use case over an arbitrary repository -/

/-- C2: when `GetByEmail` returns an existing user for the email, `Create` of the use case,
whatever the name and the password, returns no user and the error "user with this email
already exists", and its only call of the repository is that `GetByEmail`: it never calls the
repository's `Create`. -/
theorem C2_Create_conflict {σ : Type} (repo : repository.UserRepository σ) (now : Time)
    (name email password : String) (s s1 : σ) (existing : entity.User)
    (hfound : repo.GetByEmail email s = ((some existing, none), s1)) :
    (usecase.Create repo now name email password s).result =
      usecase.Outcome.returned none
        (some (errors.New "user with this email already exists")) ∧
    (usecase.Create repo now name email password s).calls =
      [repository.Call.GetByEmail email] ∧
    (∀ user, repository.Call.Create user ∉
      (usecase.Create repo now name email password s).calls) ∧
    (usecase.Create repo now name email password s).state = s1 := by
  simp [usecase.Create, hfound]

/-- Witness of C2: the `postgres` repository holding a row with the email, and a name and a
password that `NewUser` would reject. -/
theorem C2_Create_conflict_witness :
    (usecase.Create (postgres.NewUserRepository (fun _ => "id-2")) 9 "" "john@example.com"
        "pass"
        ⟨[⟨"id-1", "John Doe", "john@example.com", "password123", 5, 5⟩], 1⟩).result =
      usecase.Outcome.returned none
        (some (errors.New "user with this email already exists")) :=
  (C2_Create_conflict (postgres.NewUserRepository (fun _ => "id-2")) 9 "" "john@example.com"
    "pass" ⟨[⟨"id-1", "John Doe", "john@example.com", "password123", 5, 5⟩], 1⟩
    ⟨[⟨"id-1", "John Doe", "john@example.com", "password123", 5, 5⟩], 1⟩
    ⟨"id-1", "John Doe", "john@example.com", "password123", 5, 5⟩ (by decide)).1

/-- C5: when `Get` fails for the id (with `ErrNotFound` in particular), `Update` of the use
case returns that error and no user, whatever the name and the email; its only call of the
repository is that `Get`, so it never calls the repository's `Update`, the repository is left
in the state `Get` left it in, and it is unchanged if `Get` does not change it. -/
theorem C5_Update_not_found {σ : Type} (repo : repository.UserRepository σ) (now : Time)
    (id name email : String) (s s1 : σ) (got : Option entity.User) (e : GoError)
    (hget : repo.Get id s = ((got, some e), s1)) :
    (usecase.Update repo now id name email s).result =
      usecase.Outcome.returned none (some e) ∧
    (usecase.Update repo now id name email s).calls = [repository.Call.Get id] ∧
    (∀ user, repository.Call.Update user ∉
      (usecase.Update repo now id name email s).calls) ∧
    (usecase.Update repo now id name email s).state = s1 ∧
    (s1 = s → (usecase.Update repo now id name email s).state = s) := by
  simp [usecase.Update, hget]

/-- Witness of C5: the `postgres` repository with one row and the id of
`TestUserUseCase_Update` that no row has. -/
theorem C5_Update_not_found_witness :
    (usecase.Update (postgres.NewUserRepository (fun _ => "id-2")) 9 "non-existent-id"
        "John Updated" "john.updated@example.com"
        ⟨[⟨"id-1", "John Doe", "john@example.com", "password123", 5, 5⟩], 1⟩).result =
      usecase.Outcome.returned none (some repository.ErrNotFound) ∧
    (usecase.Update (postgres.NewUserRepository (fun _ => "id-2")) 9 "non-existent-id"
        "John Updated" "john.updated@example.com"
        ⟨[⟨"id-1", "John Doe", "john@example.com", "password123", 5, 5⟩], 1⟩).state =
      ⟨[⟨"id-1", "John Doe", "john@example.com", "password123", 5, 5⟩], 1⟩ :=
  ⟨(C5_Update_not_found (postgres.NewUserRepository (fun _ => "id-2")) 9 "non-existent-id"
      "John Updated" "john.updated@example.com"
      ⟨[⟨"id-1", "John Doe", "john@example.com", "password123", 5, 5⟩], 1⟩
      ⟨[⟨"id-1", "John Doe", "john@example.com", "password123", 5, 5⟩], 1⟩
      none repository.ErrNotFound (by decide)).1,
   (C5_Update_not_found (postgres.NewUserRepository (fun _ => "id-2")) 9 "non-existent-id"
      "John Updated" "john.updated@example.com"
      ⟨[⟨"id-1", "John Doe", "john@example.com", "password123", 5, 5⟩], 1⟩
      ⟨[⟨"id-1", "John Doe", "john@example.com", "password123", 5, 5⟩], 1⟩
      none repository.ErrNotFound (by decide)).2.2.2.2 rfl⟩

/-- C10: when `Get` returns the user `r` for the id, the name and the email are non-empty and
the repository's `Update` succeeds, `Update` of the use case returns, without error, the user
with the given name and email, the clock reading of the mutation as `UpdatedAt`, and the
`ID`, `Password` and `CreatedAt` of `r`; the user it passed to the repository's `Update` is
that same user. -/
theorem C10_Update_success {σ : Type} (repo : repository.UserRepository σ) (now : Time)
    (id name email : String) (s s1 s2 : σ) (r : entity.User)
    (hget : repo.Get id s = ((some r, none), s1))
    (hn : name ≠ "") (he : email ≠ "")
    (hupd : repo.Update { ID := r.ID, Name := name, Email := email, Password := r.Password,
                          CreatedAt := r.CreatedAt, UpdatedAt := now } s1 = (none, s2)) :
    (usecase.Update repo now id name email s).result =
      usecase.Outcome.returned
        (some { ID := r.ID, Name := name, Email := email, Password := r.Password,
                CreatedAt := r.CreatedAt, UpdatedAt := now }) none ∧
    (usecase.Update repo now id name email s).calls =
      [repository.Call.Get id,
       repository.Call.Update { ID := r.ID, Name := name, Email := email,
                                Password := r.Password, CreatedAt := r.CreatedAt,
                                UpdatedAt := now }] ∧
    (usecase.Update repo now id name email s).state = s2 := by
  simp [usecase.Update, hget, entity.User.Update, hn, he, hupd]

/-- Witness of C10: the valid update of `TestUserUseCase_Update` on the `postgres`
repository. -/
theorem C10_Update_success_witness :
    (usecase.Update (postgres.NewUserRepository (fun _ => "id-2")) 9 "id-1"
        "John Updated" "john.updated@example.com"
        ⟨[⟨"id-1", "John Doe", "john@example.com", "password123", 5, 5⟩], 1⟩).result =
      usecase.Outcome.returned
        (some ⟨"id-1", "John Updated", "john.updated@example.com", "password123", 5, 9⟩)
        none :=
  (C10_Update_success (postgres.NewUserRepository (fun _ => "id-2")) 9 "id-1"
    "John Updated" "john.updated@example.com"
    ⟨[⟨"id-1", "John Doe", "john@example.com", "password123", 5, 5⟩], 1⟩
    ⟨[⟨"id-1", "John Doe", "john@example.com", "password123", 5, 5⟩], 1⟩
    ⟨[⟨"id-1", "John Updated", "john.updated@example.com", "password123", 5, 9⟩], 1⟩
    ⟨"id-1", "John Doe", "john@example.com", "password123", 5, 5⟩
    (by decide) (by decide) (by decide) (by decide)).1

/-- C4, as stated, fails: on the in-memory repository of the use-case tests `GetByEmail`
reports `ErrNotFound` and `Create` succeeds, yet the user that `Create` of the use case
returns has the empty `ID`, because that repository assigns none. -/
theorem C4_counterexample :
    (mock.repo.GetByEmail "john@example.com" mock.newMockUserRepository).1 =
      (none, some repository.ErrNotFound) ∧
    (mock.repo.Create ⟨"", "John Doe", "john@example.com", "password123", 5, 5⟩
        mock.newMockUserRepository).1.2 = none ∧
    (usecase.Create mock.repo 5 "John Doe" "john@example.com" "password123"
        mock.newMockUserRepository).result =
      usecase.Outcome.returned
        (some ⟨"", "John Doe", "john@example.com", "password123", 5, 5⟩) none ∧
    (usecase.Create mock.repo 5 "John Doe" "john@example.com" "password123"
        mock.newMockUserRepository).calls =
      [repository.Call.GetByEmail "john@example.com",
       repository.Call.Create ⟨"", "John Doe", "john@example.com", "password123", 5, 5⟩] := by
  decide

/-- C4, amended: for a non-empty name, a non-empty email and a password of at least 8 bytes,
when `GetByEmail` reports not-found for the email and the repository's `Create` succeeds
having written a non-empty `ID` into the user it was given and nothing else, `Create` of the
use case returns, without error, the user with that non-empty `ID` and with the given name,
email and password. -/
theorem C4_Create_success {σ : Type} (repo : repository.UserRepository σ) (now : Time)
    (name email password : String) (s s1 s2 : σ) (e : GoError) (id : String)
    (hn : name ≠ "") (he : email ≠ "") (hp : 8 ≤ password.utf8ByteSize)
    (hget : repo.GetByEmail email s = ((none, some e), s1))
    (hnotFound : errors.Is e repository.ErrNotFound = true)
    (hcreate : repo.Create { ID := "", Name := name, Email := email, Password := password,
                             CreatedAt := now, UpdatedAt := now } s1 =
      (({ ID := id, Name := name, Email := email, Password := password,
          CreatedAt := now, UpdatedAt := now }, none), s2))
    (hid : id ≠ "") :
    ∃ user, (usecase.Create repo now name email password s).result =
        usecase.Outcome.returned (some user) none ∧
      user.ID = id ∧ user.ID ≠ "" ∧ user.Name = name ∧ user.Email = email ∧
      user.Password = password := by
  have hp1 : ¬ password.utf8ByteSize < 8 := Nat.not_lt.mpr hp
  refine ⟨{ ID := id, Name := name, Email := email, Password := password,
            CreatedAt := now, UpdatedAt := now }, ?_, rfl, hid, rfl, rfl, rfl⟩
  simp [usecase.Create, hget, hnotFound, entity.NewUser, hn, he, hp1, hcreate]

/-- Witness of the amended C4: the valid user of `TestUserUseCase_Create` on the empty
`postgres` repository, whose `Create` assigns the identifier `uuid.New()` gives. -/
theorem C4_Create_success_witness :
    ∃ user, (usecase.Create (postgres.NewUserRepository (fun _ => "id-1")) 5 "John Doe"
          "john@example.com" "password123" ⟨[], 0⟩).result =
        usecase.Outcome.returned (some user) none ∧
      user.ID = "id-1" ∧ user.ID ≠ "" ∧ user.Name = "John Doe" ∧
      user.Email = "john@example.com" ∧ user.Password = "password123" :=
  C4_Create_success (postgres.NewUserRepository (fun _ => "id-1")) 5 "John Doe"
    "john@example.com" "password123" ⟨[], 0⟩ ⟨[], 0⟩
    ⟨[⟨"id-1", "John Doe", "john@example.com", "password123", 5, 5⟩], 1⟩
    repository.ErrNotFound "id-1" (by decide) (by decide) (by decide) (by decide) (by decide)
    (by decide) (by decide)

/-! ## The use case over the `postgres` repository -/

/-- C3 fails on the code: on the `postgres` repository, starting from the empty table, two
`Create` calls with different emails followed by an `Update` of the second user to the email
of the first all succeed and leave two rows with the same email. `Update` of the use case
makes no `GetByEmail` check. -/
theorem C3_Update_duplicates_email :
    usecase.runOps (postgres.NewUserRepository (fun n => if n = 0 then "id-0" else "id-1"))
        [usecase.Op.Create 1 "Alice" "alice@example.com" "password1",
         usecase.Op.Create 2 "Bob" "bob@example.com" "password2",
         usecase.Op.Update 3 "id-1" "Bob" "alice@example.com"]
        ⟨[], 0⟩ =
      ⟨[⟨"id-0", "Alice", "alice@example.com", "password1", 1, 1⟩,
        ⟨"id-1", "Bob", "alice@example.com", "password2", 2, 3⟩], 2⟩ ∧
    (usecase.Update (postgres.NewUserRepository (fun n => if n = 0 then "id-0" else "id-1"))
        3 "id-1" "Bob" "alice@example.com"
        ⟨[⟨"id-0", "Alice", "alice@example.com", "password1", 1, 1⟩,
          ⟨"id-1", "Bob", "bob@example.com", "password2", 2, 2⟩], 2⟩).result =
      usecase.Outcome.returned
        (some ⟨"id-1", "Bob", "alice@example.com", "password2", 2, 3⟩) none ∧
    ¬ (usecase.runOps
        (postgres.NewUserRepository (fun n => if n = 0 then "id-0" else "id-1"))
        [usecase.Op.Create 1 "Alice" "alice@example.com" "password1",
         usecase.Op.Create 2 "Bob" "bob@example.com" "password2",
         usecase.Op.Update 3 "id-1" "Bob" "alice@example.com"]
        ⟨[], 0⟩).emailsUnique := by
  decide

/-- The email check of `Create`: on the `postgres` repository, `Create` of the use case keeps
the emails of the rows pairwise different. -/
theorem postgres_Create_keeps_emailsUnique (uuid : Nat → String) (now : Time)
    (name email password : String) (db : postgres.DB) (hdb : db.emailsUnique) :
    (usecase.Create (postgres.NewUserRepository uuid) now name email password
      db).state.emailsUnique := by
  unfold usecase.Create
  simp only [postgres.NewUserRepository, postgres.GetByEmail]
  cases hfind : db.users.find? (fun u => decide (u.Email = email)) with
  | some u => simpa using hdb
  | none =>
    have hfresh : ∀ u ∈ db.users, ¬ u.Email = email := by
      intro u hu
      simpa using (List.find?_eq_none.mp hfind) u hu
    by_cases hn : name = ""
    · simpa [entity.NewUser, hn, repository.ErrNotFound, errors.Is] using hdb
    · by_cases he : email = ""
      · simpa [entity.NewUser, hn, he, repository.ErrNotFound, errors.Is] using hdb
      · by_cases hp : password.utf8ByteSize < 8
        · simpa [entity.NewUser, hn, he, hp, repository.ErrNotFound, errors.Is] using hdb
        · simp only [entity.NewUser, hn, he, hp, repository.ErrNotFound, errors.Is,
            postgres.Create, if_false, decide_True, Bool.not_true, Option.isSome_none]
          simp only [postgres.DB.emailsUnique, Bool.false_eq_true, if_false, List.map_append,
            List.map_cons, List.map_nil]
          rw [List.nodup_append]
          refine ⟨hdb, List.nodup_singleton _, ?_⟩
          intro x hx hx1
          rw [List.mem_singleton] at hx1
          rcases List.mem_map.mp hx with ⟨u, hu, hux⟩
          exact hfresh u hu (hux.trans hx1)

/-- On the `postgres` repository, `Delete` of the use case keeps the emails of the rows
pairwise different. -/
theorem postgres_Delete_keeps_emailsUnique (uuid : Nat → String) (id : String)
    (db : postgres.DB) (hdb : db.emailsUnique) :
    (usecase.Delete (postgres.NewUserRepository uuid) id db).state.emailsUnique := by
  simp only [usecase.Delete, postgres.NewUserRepository, postgres.Delete]
  split
  · exact hdb
  · exact List.Nodup.sublist (List.Sublist.map _ (List.filter_sublist _)) hdb

/-- Rewriting name, email and timestamp of the rows with a given id keeps the emails pairwise
different when the ids are pairwise different and no row with another id has the new
email. -/
theorem map_update_keeps_emails_nodup (id name email : String) (now : Time) :
    ∀ l : List entity.User,
      (l.map (fun u => u.ID)).Nodup → (l.map (fun u => u.Email)).Nodup →
      (∀ u ∈ l, u.ID ≠ id → u.Email ≠ email) →
      ((l.map (fun u => if u.ID = id then
          ({ u with Name := name, Email := email, UpdatedAt := now } : entity.User)
        else u)).map (fun u => u.Email)).Nodup := by
  intro l
  induction l with
  | nil => intro _ _ _; simp
  | cons a l ih =>
    intro hid hem hfresh
    simp only [List.map_cons, List.nodup_cons] at hid hem ⊢
    refine ⟨?_, ih hid.2 hem.2 (fun u hu => hfresh u (List.mem_cons_of_mem a hu))⟩
    intro hmem
    rcases List.mem_map.mp hmem with ⟨v, hv, hva⟩
    rcases List.mem_map.mp hv with ⟨u, hu, huv⟩
    by_cases hu1 : u.ID = id
    · rw [if_pos hu1] at huv
      by_cases ha : a.ID = id
      · exact hid.1 (List.mem_map.mpr ⟨u, hu, hu1.trans ha.symm⟩)
      · rw [if_neg ha] at hva
        rw [← huv] at hva
        exact hfresh a (List.mem_cons_self a l) ha hva.symm
    · rw [if_neg hu1] at huv
      rw [← huv] at hva
      by_cases ha : a.ID = id
      · rw [if_pos ha] at hva
        exact hfresh u (List.mem_cons_of_mem a hu) hu1 hva
      · rw [if_neg ha] at hva
        exact hem.1 (List.mem_map.mpr ⟨u, hu, hva⟩)

/-- On the `postgres` repository, `Update` of the use case keeps the emails of the rows
pairwise different when the ids of the rows are pairwise different and no row with another
id than the one updated has the new email: the case that `Update` does not check for. -/
theorem postgres_Update_keeps_emailsUnique (uuid : Nat → String) (now : Time)
    (id name email : String) (db : postgres.DB) (hdb : db.emailsUnique)
    (hids : (db.users.map (fun u => u.ID)).Nodup)
    (hfresh : ∀ u ∈ db.users, u.ID ≠ id → u.Email ≠ email) :
    (usecase.Update (postgres.NewUserRepository uuid) now id name email
      db).state.emailsUnique := by
  unfold usecase.Update
  simp only [postgres.NewUserRepository, postgres.Get]
  cases hfind : db.users.find? (fun u => decide (u.ID = id)) with
  | none => simpa [repository.ErrNotFound] using hdb
  | some r =>
    have hr : r.ID = id := by simpa using List.find?_some hfind
    subst hr
    by_cases hn : name = ""
    · simpa [entity.User.Update, hn] using hdb
    · by_cases he : email = ""
      · simpa [entity.User.Update, hn, he] using hdb
      · by_cases hlen : (db.users.filter (fun u => decide (u.ID = r.ID))).length = 0
        · simpa [entity.User.Update, hn, he, postgres.Update, hlen] using hdb
        · simp only [entity.User.Update, hn, he, if_false, postgres.Update, hlen,
            postgres.DB.emailsUnique]
          exact map_update_keeps_emails_nodup r.ID name email now db.users hids hdb hfresh

/-! ## The transport handler -/

/-- C11 fails on the code: for the update request of `TestUserAPI_Update` whose id has no
row, the body being well formed, `Update` of the use case fails with `ErrNotFound` and the
handler's `Update` answers with status 400, not 404, while the handler's `Get` answers the
same missing id with 404; the valid update is answered with 200. -/
theorem C11_Update_not_found_status :
    (usecase.Update (postgres.NewUserRepository (fun _ => "id-2")) 9 "non-existent-id"
        "John Updated" "john.updated@example.com"
        ⟨[⟨"id-1", "John Doe", "john@example.com", "password123", 5, 5⟩], 1⟩).result =
      usecase.Outcome.returned none (some repository.ErrNotFound) ∧
    (handler.Update (postgres.NewUserRepository (fun _ => "id-2")) 9 "non-existent-id"
        (Except.ok ⟨"John Updated", "john.updated@example.com"⟩)
        ⟨[⟨"id-1", "John Doe", "john@example.com", "password123", 5, 5⟩], 1⟩).result =
      some (handler.Response.ErrorResponse repository.ErrNotFound 400) ∧
    (handler.Get (postgres.NewUserRepository (fun _ => "id-2")) "non-existent-id"
        ⟨[⟨"id-1", "John Doe", "john@example.com", "password123", 5, 5⟩], 1⟩).result =
      handler.Response.ErrorResponse repository.ErrNotFound 404 ∧
    (handler.Update (postgres.NewUserRepository (fun _ => "id-2")) 9 "id-1"
        (Except.ok ⟨"John Updated", "john.updated@example.com"⟩)
        ⟨[⟨"id-1", "John Doe", "john@example.com", "password123", 5, 5⟩], 1⟩).result =
      some (handler.Response.JSONResponse
        (some ⟨"id-1", "John Updated", "john.updated@example.com", "password123", 5, 9⟩)
        200) := by
  decide

/-- The handler's `Update` answers every error of the use case's `Update`, `ErrNotFound`
included, with status 400. -/
theorem handler_Update_error_status {σ : Type} (repo : repository.UserRepository σ)
    (now : Time) (id : String) (req : handler.updateUserRequest) (s : σ)
    (user : Option entity.User) (err : GoError)
    (hfail : (usecase.Update repo now id req.Name req.Email s).result =
      usecase.Outcome.returned user (some err)) :
    (handler.Update repo now id (Except.ok req) s).result =
      some (handler.Response.ErrorResponse err 400) := by
  simp [handler.Update, hfail]

/-- The handler's `Update` answers a successful `Update` of the use case with status 200 and
the returned user. -/
theorem handler_Update_success_status {σ : Type} (repo : repository.UserRepository σ)
    (now : Time) (id : String) (req : handler.updateUserRequest) (s : σ)
    (user : Option entity.User)
    (hok : (usecase.Update repo now id req.Name req.Email s).result =
      usecase.Outcome.returned user none) :
    (handler.Update repo now id (Except.ok req) s).result =
      some (handler.Response.JSONResponse user 200) := by
  simp [handler.Update, hok]

/-! ## The password length -/

/-- C12 fails on the code: the password `パスワード` has 5 characters, fewer than 8, and 15
bytes; `NewUser`, which compares the number of bytes with 8, returns a user and no error. -/
theorem C12_NewUser_accepts_short_multibyte_password :
    "パスワード".length = 5 ∧
    "パスワード".utf8ByteSize = 15 ∧
    entity.NewUser 5 "John Doe" "john@example.com" "パスワード" =
      (some ⟨"", "John Doe", "john@example.com", "パスワード", 5, 5⟩, none) := by
  decide

/-- What `NewUser` does check: a password of fewer than 8 bytes is refused, with no user
returned. -/
theorem NewUser_short_bytes_fails (now : Time) (name email password : String)
    (hshort : password.utf8ByteSize < 8) :
    (entity.NewUser now name email password).1 = none ∧
    (entity.NewUser now name email password).2 ≠ none := by
  unfold entity.NewUser
  by_cases hn : name = ""
  · simp [hn]
  · by_cases he : email = ""
    · simp [hn, he]
    · simp [hn, he, hshort]

/-! ## What the use case hands to the repository -/

/-- The repository calls of `Create` of the use case: the `GetByEmail` alone, or the
`GetByEmail` and then `Create` on the user `NewUser` built, which happens only for a non-empty
name, a non-empty email and a password of at least 8 bytes. -/
theorem Create_calls_shape {σ : Type} (repo : repository.UserRepository σ) (now : Time)
    (name email password : String) (s : σ) :
    (usecase.Create repo now name email password s).calls =
        [repository.Call.GetByEmail email] ∨
    ((usecase.Create repo now name email password s).calls =
        [repository.Call.GetByEmail email,
         repository.Call.Create { ID := "", Name := name, Email := email,
                                  Password := password, CreatedAt := now, UpdatedAt := now }] ∧
      name ≠ "" ∧ email ≠ "" ∧ 8 ≤ password.utf8ByteSize) := by
  rcases hg : repo.GetByEmail email s with ⟨⟨existing, err⟩, s1⟩
  unfold usecase.Create
  simp only [hg]
  split_ifs with h1 h2
  · exact Or.inl rfl
  · exact Or.inl rfl
  · by_cases hn : name = ""
    · simp [entity.NewUser, hn]
    · by_cases he : email = ""
      · simp [entity.NewUser, hn, he]
      · by_cases hp : password.utf8ByteSize < 8
        · simp [entity.NewUser, hn, he, hp]
        · simp only [entity.NewUser, hn, he, hp, if_false]
          rcases hc : repo.Create (⟨"", name, email, password, now, now⟩ : entity.User) s1 with
            ⟨⟨user1, cerr⟩, s2⟩
          cases cerr with
          | none => exact Or.inr ⟨by rfl, hn, he, Nat.not_lt.mp hp⟩
          | some e => exact Or.inr ⟨by rfl, hn, he, Nat.not_lt.mp hp⟩

/-- The repository calls of `Update` of the use case: the `Get` alone, or the `Get`, which
returned a user `r`, and then `Update` on `r` with the new name, email and timestamp, which
happens only for a non-empty name and a non-empty email. -/
theorem Update_calls_shape {σ : Type} (repo : repository.UserRepository σ) (now : Time)
    (id name email : String) (s : σ) :
    (usecase.Update repo now id name email s).calls = [repository.Call.Get id] ∨
    (∃ r : entity.User,
      (repo.Get id s).1 = (some r, none) ∧
      (usecase.Update repo now id name email s).calls =
        [repository.Call.Get id,
         repository.Call.Update { ID := r.ID, Name := name, Email := email,
                                  Password := r.Password, CreatedAt := r.CreatedAt,
                                  UpdatedAt := now }] ∧
      name ≠ "" ∧ email ≠ "") := by
  rcases hg : repo.Get id s with ⟨⟨got, err⟩, s1⟩
  unfold usecase.Update
  simp only [hg]
  cases err with
  | some e => cases got <;> exact Or.inl (by rfl)
  | none =>
    cases got with
    | none =>
      left
      simp only
      split_ifs <;> rfl
    | some r =>
      by_cases hn : name = ""
      · simp [entity.User.Update, hn]
      · by_cases he : email = ""
        · simp [entity.User.Update, hn, he]
        · simp only [entity.User.Update, hn, he, if_false]
          rcases hu : repo.Update
              (⟨r.ID, name, email, r.Password, r.CreatedAt, now⟩ : entity.User) s1 with
            ⟨uerr, s2⟩
          cases uerr with
          | none => exact Or.inr ⟨r, rfl, by rfl, hn, he⟩
          | some e => exact Or.inr ⟨r, rfl, by rfl, hn, he⟩

/-- C13: whatever the input and whatever the repository does, every user that a method of the
use case passes to the repository's `Create` or `Update` has a non-empty name and a non-empty
email; `Get`, `Delete` and `List` of the use case pass no user to either. -/
theorem C13_persisted_name_email_nonempty {σ : Type} (repo : repository.UserRepository σ)
    (now : Time) (id name email password : String) (s : σ) :
    (∀ u, (repository.Call.Create u ∈ (usecase.Create repo now name email password s).calls ∨
           repository.Call.Update u ∈ (usecase.Create repo now name email password s).calls) →
        u.Name ≠ "" ∧ u.Email ≠ "") ∧
    (∀ u, (repository.Call.Create u ∈ (usecase.Update repo now id name email s).calls ∨
           repository.Call.Update u ∈ (usecase.Update repo now id name email s).calls) →
        u.Name ≠ "" ∧ u.Email ≠ "") ∧
    (∀ u, repository.Call.Create u ∉ (usecase.Get repo id s).calls ∧
          repository.Call.Update u ∉ (usecase.Get repo id s).calls) ∧
    (∀ u, repository.Call.Create u ∉ (usecase.Delete repo id s).calls ∧
          repository.Call.Update u ∉ (usecase.Delete repo id s).calls) ∧
    (∀ u, repository.Call.Create u ∉ (usecase.List repo s).calls ∧
          repository.Call.Update u ∉ (usecase.List repo s).calls) := by
  refine ⟨?_, ?_, ?_, ?_, ?_⟩
  · intro u hu
    rcases Create_calls_shape repo now name email password s with h | ⟨h, hn, he, _⟩
    · rw [h] at hu
      simp at hu
    · rw [h] at hu
      simp at hu
      subst hu
      exact ⟨hn, he⟩
  · intro u hu
    rcases Update_calls_shape repo now id name email s with h | ⟨r, _, h, hn, he⟩
    · rw [h] at hu
      simp at hu
    · rw [h] at hu
      simp at hu
      subst hu
      exact ⟨hn, he⟩
  · intro u
    simp [usecase.Get]
  · intro u
    simp [usecase.Delete]
  · intro u
    simp [usecase.List]

/-! ## Errors of the email lookup in `Create` -/

/-- The errors of `NewUser` are made by `errors.New`: none of them is or wraps
`ErrNotFound`. -/
theorem NewUser_error_not_notFound (now : Time) (name email password : String) (v : GoError)
    (hv : (entity.NewUser now name email password).2 = some v) :
    errors.Is v repository.ErrNotFound = false := by
  unfold entity.NewUser at hv
  by_cases hn : name = ""
  · simp [hn] at hv
    subst hv
    decide
  · by_cases he : email = ""
    · simp [hn, he] at hv
      subst hv
      decide
    · by_cases hp : password.utf8ByteSize < 8
      · simp [hn, he, hp] at hv
        subst hv
        decide
      · simp [hn, he, hp] at hv

/-- C14: when `GetByEmail` fails with an error `e`, `Create` of the use case does one of two
things. If `e` neither is nor wraps `ErrNotFound`, it returns exactly `e` and no user, and
its only repository call is that `GetByEmail`. If `e` is or wraps `ErrNotFound` (no user
coming with it), `e` is dropped and `Create` goes on to `NewUser`: a validation error of
`NewUser`, which differs from `e`, is what it returns; otherwise it calls the repository's
`Create` on the new user and returns that call's error, or the stored user. -/
theorem C14_Create_lookup_error {σ : Type} (repo : repository.UserRepository σ) (now : Time)
    (name email password : String) (s s1 : σ) (got : Option entity.User) (e : GoError)
    (hget : repo.GetByEmail email s = ((got, some e), s1)) :
    (errors.Is e repository.ErrNotFound = false →
      (usecase.Create repo now name email password s).result =
        usecase.Outcome.returned none (some e) ∧
      (usecase.Create repo now name email password s).calls =
        [repository.Call.GetByEmail email] ∧
      (∀ user, repository.Call.Create user ∉
        (usecase.Create repo now name email password s).calls) ∧
      (usecase.Create repo now name email password s).state = s1) ∧
    (errors.Is e repository.ErrNotFound = true → got = none →
      (∀ v, (entity.NewUser now name email password).2 = some v →
        (usecase.Create repo now name email password s).result =
          usecase.Outcome.returned none (some v) ∧
        v ≠ e ∧
        (usecase.Create repo now name email password s).calls =
          [repository.Call.GetByEmail email]) ∧
      (∀ user, entity.NewUser now name email password = (some user, none) →
        (usecase.Create repo now name email password s).calls =
          [repository.Call.GetByEmail email, repository.Call.Create user] ∧
        (usecase.Create repo now name email password s).state = (repo.Create user s1).2 ∧
        (∀ e2, (repo.Create user s1).1.2 = some e2 →
          (usecase.Create repo now name email password s).result =
            usecase.Outcome.returned none (some e2)) ∧
        ((repo.Create user s1).1.2 = none →
          (usecase.Create repo now name email password s).result =
            usecase.Outcome.returned (some (repo.Create user s1).1.1) none))) := by
  constructor
  · intro hnot
    simp [usecase.Create, hget, hnot]
  · intro his hgot
    subst hgot
    constructor
    · intro v hv
      have hne : v ≠ e := by
        intro hve
        have h1 := NewUser_error_not_notFound now name email password v hv
        rw [hve, his] at h1
        exact Bool.noConfusion h1
      refine ⟨?_, hne, ?_⟩
      · rcases hnu : entity.NewUser now name email password with ⟨nu, nerr⟩
        rw [hnu] at hv
        simp only at hv
        subst hv
        simp [usecase.Create, hget, his, hnu]
      · rcases hnu : entity.NewUser now name email password with ⟨nu, nerr⟩
        rw [hnu] at hv
        simp only at hv
        subst hv
        simp [usecase.Create, hget, his, hnu]
    · intro user hnu
      rcases hc : repo.Create user s1 with ⟨⟨user1, cerr⟩, s2⟩
      cases cerr with
      | none => simp [usecase.Create, hget, his, hnu, hc]
      | some e2 => simp [usecase.Create, hget, his, hnu, hc]

/-- Witness of C14: on a `postgres` repository whose database refuses the connection,
`Create` returns the connection error; on the empty `postgres` repository, whose
`GetByEmail` reports `ErrNotFound`, `Create` goes on to store the new user. -/
theorem C14_Create_lookup_error_witness :
    (usecase.Create (postgres.disconnected (fun _ => "id-1") (GoError.text "connection refused"))
        5 "John Doe" "john@example.com" "password123" ⟨[], 0⟩).result =
      usecase.Outcome.returned none (some (GoError.text "connection refused")) ∧
    (usecase.Create (postgres.NewUserRepository (fun _ => "id-1")) 5 "John Doe"
        "john@example.com" "password123" ⟨[], 0⟩).calls =
      [repository.Call.GetByEmail "john@example.com",
       repository.Call.Create ⟨"", "John Doe", "john@example.com", "password123", 5, 5⟩] ∧
    (usecase.Create (postgres.NewUserRepository (fun _ => "id-1")) 5 "John Doe"
        "john@example.com" "password123" ⟨[], 0⟩).result =
      usecase.Outcome.returned
        (some ⟨"id-1", "John Doe", "john@example.com", "password123", 5, 5⟩) none :=
  ⟨((C14_Create_lookup_error
        (postgres.disconnected (fun _ => "id-1") (GoError.text "connection refused"))
        5 "John Doe" "john@example.com" "password123" ⟨[], 0⟩ ⟨[], 0⟩ none
        (GoError.text "connection refused") (by decide)).1 (by decide)).1,
   (((C14_Create_lookup_error (postgres.NewUserRepository (fun _ => "id-1"))
        5 "John Doe" "john@example.com" "password123" ⟨[], 0⟩ ⟨[], 0⟩ none
        repository.ErrNotFound (by decide)).2 (by decide) rfl).2
      ⟨"", "John Doe", "john@example.com", "password123", 5, 5⟩ (by decide)).1,
   (((C14_Create_lookup_error (postgres.NewUserRepository (fun _ => "id-1"))
        5 "John Doe" "john@example.com" "password123" ⟨[], 0⟩ ⟨[], 0⟩ none
        repository.ErrNotFound (by decide)).2 (by decide) rfl).2
      ⟨"", "John Doe", "john@example.com", "password123", 5, 5⟩ (by decide)).2.2.2
      (by decide)⟩
